import Mathlib

/-!
Shallow embedding of the compound-interest projection engine
(`calculateCompoundInterest` in `src/lib/calc.ts`) and proofs of the
spec's claims about it.

JavaScript `number` arithmetic is modelled by the real numbers `ℝ`:
the spec states its numeric identities "by construction / within
floating-point tolerance", i.e. at the level of real arithmetic.
`Math.pow` with a real exponent is `Real.rpow`, `Math.round` is
Mathlib's `round` (both round halves up, like JavaScript), and
`Math.ceil(month / 12)` on positive integers is `(month + 11) / 12`
in natural-number division.
-/

namespace InterestCalc

/-- The `contributionFrequency` field: `"monthly" | "annual"`. -/
inductive ContributionFrequency where
  | monthly
  | annual
deriving DecidableEq

/-- The `CalculationInput` record of `calc.ts`. -/
structure CalculationInput where
  principal : ℝ
  annualRatePercent : ℝ
  years : ℝ
  compoundsPerYear : ℝ
  contributionAmount : ℝ
  contributionFrequency : ContributionFrequency

/-- The `YearlyRow` record of `calc.ts`. -/
structure YearlyRow where
  yearNumber : ℕ
  isPartial : Bool
  endBalance : ℝ
  yearlyContributions : ℝ
  yearlyInterest : ℝ
  totalContributions : ℝ
  totalInterest : ℝ

/-- The `CalculationResult` record of `calc.ts`. -/
structure CalculationResult where
  finalAmount : ℝ
  totalContributions : ℝ
  totalInterest : ℝ
  yearlyRows : List YearlyRow

/-- The mutable loop state of `calculateCompoundInterest`: `balance`,
`totalContributions` and the `yearlyRows` array being accumulated. -/
structure LoopState where
  balance : ℝ
  totalContributions : ℝ
  yearlyRows : List YearlyRow

/-- The `contributionThisMonth` computed inside the loop body: the
contribution amount every month when the frequency is monthly, and only
at year boundaries (`month % 12 == 0`) when it is annual. -/
def contributionThisMonth (freq : ContributionFrequency) (amt : ℝ) (month : ℕ) : ℝ :=
  if freq = ContributionFrequency.monthly then amt
  else if month % 12 == 0 then amt else 0

/-- The `YearlyRow` pushed by the loop body at an emitting month
(`isYearEnd || isFinalMonth`), given the state `s` before this month. -/
def emittedRow (freq : ContributionFrequency) (amt principal monthlyRate : ℝ)
    (month : ℕ) (s : LoopState) : YearlyRow :=
  let contribution := contributionThisMonth freq amt month
  let balance := s.balance * (1 + monthlyRate) + contribution
  let totalContributions := s.totalContributions + contribution
  let previousBalance :=
    match s.yearlyRows.getLast? with
    | some r => r.endBalance
    | none => principal
  let previousTotalContributions :=
    match s.yearlyRows.getLast? with
    | some r => r.totalContributions
    | none => principal
  let yearlyContributions := totalContributions - previousTotalContributions
  { yearNumber := (month + 11) / 12
    isPartial := month % 12 != 0
    endBalance := balance
    yearlyContributions := yearlyContributions
    yearlyInterest := balance - previousBalance - yearlyContributions
    totalContributions := totalContributions
    totalInterest := balance - totalContributions }

/-- One iteration of the monthly loop of `calculateCompoundInterest`
(the body for a given `month`, with `months` the loop bound): grow the
balance, add the contribution, and emit a `YearlyRow` when the month is
a year end or the final month. -/
def step (freq : ContributionFrequency) (amt principal monthlyRate : ℝ)
    (months month : ℕ) (s : LoopState) : LoopState :=
  let contribution := contributionThisMonth freq amt month
  let balance := s.balance * (1 + monthlyRate) + contribution
  let totalContributions := s.totalContributions + contribution
  let isYearEnd : Bool := month % 12 == 0
  let isFinalMonth : Bool := month == months
  if isYearEnd || isFinalMonth then
    { balance := balance
      totalContributions := totalContributions
      yearlyRows := s.yearlyRows ++ [emittedRow freq amt principal monthlyRate month s] }
  else
    { balance := balance
      totalContributions := totalContributions
      yearlyRows := s.yearlyRows }

/-- The state before the loop: `balance = principal`,
`totalContributions = principal`, no rows. -/
def initState (principal : ℝ) : LoopState :=
  { balance := principal
    totalContributions := principal
    yearlyRows := [] }

/-- Loop state after the first `n` iterations of the loop
`for (month = 1; month <= months; month += 1)`. -/
def runMonths (freq : ContributionFrequency) (amt principal monthlyRate : ℝ)
    (months : ℕ) : ℕ → LoopState
  | 0 => initState principal
  | n + 1 =>
    step freq amt principal monthlyRate months (n + 1)
      (runMonths freq amt principal monthlyRate months n)

/-- The loop bound `months = Math.max(1, Math.round(years * 12))`, as the
number of iterations. `Int.toNat` clamps negatives to `0`, which `max 1`
absorbs, exactly as `Math.max(1, ·)` does. -/
noncomputable def monthsOf (years : ℝ) : ℕ :=
  max 1 (round (years * 12)).toNat

/-- The effective monthly growth rate
`Math.pow(1 + annualRate / compoundsPerYear, compoundsPerYear / 12) - 1`
with `annualRate = annualRatePercent / 100`; the power is `Real.rpow`. -/
noncomputable def monthlyRateOf (annualRatePercent compoundsPerYear : ℝ) : ℝ :=
  (1 + (annualRatePercent / 100) / compoundsPerYear) ^ (compoundsPerYear / 12) - 1

/-- The projection engine `calculateCompoundInterest` of `calc.ts`. -/
noncomputable def calculateCompoundInterest (input : CalculationInput) : CalculationResult :=
  let months := monthsOf input.years
  let monthlyRate := monthlyRateOf input.annualRatePercent input.compoundsPerYear
  let final := runMonths input.contributionFrequency input.contributionAmount
    input.principal monthlyRate months months
  { finalAmount := final.balance
    totalContributions := final.totalContributions
    totalInterest := final.balance - final.totalContributions
    yearlyRows := final.yearlyRows }

/-! Basic unfolding lemmas for the loop body. -/

/-- The balance update of one loop iteration, independent of row emission. -/
theorem step_balance (freq : ContributionFrequency) (amt principal monthlyRate : ℝ)
    (months month : ℕ) (s : LoopState) :
    (step freq amt principal monthlyRate months month s).balance =
      s.balance * (1 + monthlyRate) + contributionThisMonth freq amt month := by
  simp only [step]
  split <;> rfl

/-- The contribution-total update of one loop iteration. -/
theorem step_totalContributions (freq : ContributionFrequency)
    (amt principal monthlyRate : ℝ) (months month : ℕ) (s : LoopState) :
    (step freq amt principal monthlyRate months month s).totalContributions =
      s.totalContributions + contributionThisMonth freq amt month := by
  simp only [step]
  split <;> rfl

/-- The rows after one loop iteration: unchanged, or with the emitted row
appended when the month is a year end or the final month. -/
theorem step_yearlyRows (freq : ContributionFrequency) (amt principal monthlyRate : ℝ)
    (months month : ℕ) (s : LoopState) :
    (step freq amt principal monthlyRate months month s).yearlyRows =
      if month % 12 = 0 ∨ month = months then
        s.yearlyRows ++ [emittedRow freq amt principal monthlyRate month s]
      else s.yearlyRows := by
  simp only [step]
  by_cases h : month % 12 = 0 ∨ month = months
  · rw [if_pos h]
    have hb : ((month % 12 == 0) || (month == months)) = true := by
      rcases h with h | h <;> simp [h]
    simp only [hb, if_true]
  · rw [if_neg h]
    push_neg at h
    have hb : ((month % 12 == 0) || (month == months)) = false := by
      simp [h.1, h.2]
    simp only [hb, Bool.false_eq_true, if_false]

/-- At `month = months` the loop body always emits a row, and the new
state is exactly the emitted row's balance and totals with the row
appended. -/
theorem step_self_emit (freq : ContributionFrequency) (amt principal monthlyRate : ℝ)
    (months : ℕ) (s : LoopState) :
    step freq amt principal monthlyRate months months s =
      { balance := (emittedRow freq amt principal monthlyRate months s).endBalance
        totalContributions :=
          (emittedRow freq amt principal monthlyRate months s).totalContributions
        yearlyRows :=
          s.yearlyRows ++ [emittedRow freq amt principal monthlyRate months s] } := by
  simp only [step, beq_self_eq_true, Bool.or_true, if_true]
  rfl

/-- The loop bound is at least one iteration. -/
theorem monthsOf_pos (years : ℝ) : 0 < monthsOf years := by
  have h := Nat.le_max_left 1 (round (years * 12)).toNat
  unfold monthsOf
  omega

/-- The final loop state, for a positive loop bound: the state before the
last month with the last month's emitted row incorporated. -/
theorem runMonths_final (freq : ContributionFrequency) (amt principal monthlyRate : ℝ)
    (months : ℕ) (hM : months ≠ 0) :
    runMonths freq amt principal monthlyRate months months =
      { balance := (emittedRow freq amt principal monthlyRate months
          (runMonths freq amt principal monthlyRate months (months - 1))).endBalance
        totalContributions := (emittedRow freq amt principal monthlyRate months
          (runMonths freq amt principal monthlyRate months (months - 1))).totalContributions
        yearlyRows := (runMonths freq amt principal monthlyRate months
            (months - 1)).yearlyRows ++
          [emittedRow freq amt principal monthlyRate months
            (runMonths freq amt principal monthlyRate months (months - 1))] } := by
  cases months with
  | zero => exact absurd rfl hM
  | succ k =>
    show step freq amt principal monthlyRate (k + 1) (k + 1)
      (runMonths freq amt principal monthlyRate (k + 1) k) = _
    rw [step_self_emit]
    rfl

/-- The result's `finalAmount` is the final loop balance. -/
theorem calc_finalAmount (input : CalculationInput) :
    (calculateCompoundInterest input).finalAmount =
      (runMonths input.contributionFrequency input.contributionAmount input.principal
        (monthlyRateOf input.annualRatePercent input.compoundsPerYear)
        (monthsOf input.years) (monthsOf input.years)).balance := rfl

/-- The result's `totalContributions` is the final loop contribution total. -/
theorem calc_totalContributions (input : CalculationInput) :
    (calculateCompoundInterest input).totalContributions =
      (runMonths input.contributionFrequency input.contributionAmount input.principal
        (monthlyRateOf input.annualRatePercent input.compoundsPerYear)
        (monthsOf input.years) (monthsOf input.years)).totalContributions := rfl

/-- The result's rows are the final loop rows. -/
theorem calc_yearlyRows (input : CalculationInput) :
    (calculateCompoundInterest input).yearlyRows =
      (runMonths input.contributionFrequency input.contributionAmount input.principal
        (monthlyRateOf input.annualRatePercent input.compoundsPerYear)
        (monthsOf input.years) (monthsOf input.years)).yearlyRows := rfl

/-- Every row ever emitted satisfies `totalInterest = endBalance -
totalContributions`, since the loop body computes it that way. -/
theorem rows_totalInterest_eq (freq : ContributionFrequency)
    (amt principal monthlyRate : ℝ) (months : ℕ) : ∀ n,
    ∀ row ∈ (runMonths freq amt principal monthlyRate months n).yearlyRows,
      row.totalInterest = row.endBalance - row.totalContributions := by
  intro n
  induction n with
  | zero => intro row h; exact absurd h (List.not_mem_nil row)
  | succ k ih =>
    intro row h
    rw [show runMonths freq amt principal monthlyRate months (k + 1) =
        step freq amt principal monthlyRate months (k + 1)
          (runMonths freq amt principal monthlyRate months k) from rfl,
      step_yearlyRows] at h
    by_cases hc : (k + 1) % 12 = 0 ∨ k + 1 = months
    · rw [if_pos hc, List.mem_append] at h
      rcases h with h | h
      · exact ih row h
      · rw [List.mem_singleton] at h
        subst h
        rfl
    · rw [if_neg hc] at h
      exact ih row h

/-- CLAIM C2: for every input, `totalInterest` equals `finalAmount` minus
`totalContributions` in the final result, and every emitted `YearlyRow`
satisfies `totalInterest = endBalance - totalContributions`. -/
theorem totalInterest_is_difference (input : CalculationInput) :
    (calculateCompoundInterest input).totalInterest =
      (calculateCompoundInterest input).finalAmount -
        (calculateCompoundInterest input).totalContributions ∧
    ∀ row ∈ (calculateCompoundInterest input).yearlyRows,
      row.totalInterest = row.endBalance - row.totalContributions := by
  constructor
  · rfl
  · exact rows_totalInterest_eq input.contributionFrequency input.contributionAmount
      input.principal (monthlyRateOf input.annualRatePercent input.compoundsPerYear)
      (monthsOf input.years) (monthsOf input.years)

/-- CLAIM C6: for every input the row list is non-empty, the last row's
`endBalance` equals the result's `finalAmount`, and the last row's
`totalContributions` equals the result's `totalContributions`. -/
theorem lastRow_matches_result (input : CalculationInput) :
    (calculateCompoundInterest input).yearlyRows ≠ [] ∧
    ∃ r, (calculateCompoundInterest input).yearlyRows.getLast? = some r ∧
      r.endBalance = (calculateCompoundInterest input).finalAmount ∧
      r.totalContributions = (calculateCompoundInterest input).totalContributions := by
  have hM : monthsOf input.years ≠ 0 := Nat.pos_iff_ne_zero.mp (monthsOf_pos input.years)
  have hfin := runMonths_final input.contributionFrequency input.contributionAmount
    input.principal (monthlyRateOf input.annualRatePercent input.compoundsPerYear)
    (monthsOf input.years) hM
  rw [calc_yearlyRows, calc_finalAmount, calc_totalContributions, hfin]
  exact ⟨by simp, emittedRow input.contributionFrequency input.contributionAmount
    input.principal (monthlyRateOf input.annualRatePercent input.compoundsPerYear)
    (monthsOf input.years) (runMonths input.contributionFrequency input.contributionAmount
      input.principal (monthlyRateOf input.annualRatePercent input.compoundsPerYear)
      (monthsOf input.years) (monthsOf input.years - 1)), by simp, rfl, rfl⟩

/-- Before the final month, rows are emitted exactly at year ends: after
`n < months` iterations there are `n / 12` rows and none is partial. -/
theorem rows_before_final (freq : ContributionFrequency) (amt principal monthlyRate : ℝ)
    (months : ℕ) : ∀ n, n < months →
    (runMonths freq amt principal monthlyRate months n).yearlyRows.length = n / 12 ∧
    ∀ row ∈ (runMonths freq amt principal monthlyRate months n).yearlyRows,
      row.isPartial = false := by
  intro n
  induction n with
  | zero =>
    intro _
    exact ⟨rfl, fun row h => absurd h (List.not_mem_nil row)⟩
  | succ k ih =>
    intro hlt
    obtain ⟨hlen, hflags⟩ := ih (Nat.lt_of_succ_lt hlt)
    have hne : k + 1 ≠ months := Nat.ne_of_lt hlt
    rw [show runMonths freq amt principal monthlyRate months (k + 1) =
        step freq amt principal monthlyRate months (k + 1)
          (runMonths freq amt principal monthlyRate months k) from rfl,
      step_yearlyRows]
    by_cases hdiv : (k + 1) % 12 = 0
    · rw [if_pos (Or.inl hdiv)]
      constructor
      · rw [List.length_append, List.length_singleton, hlen]
        omega
      · intro row h
        rw [List.mem_append] at h
        rcases h with h | h
        · exact hflags row h
        · rw [List.mem_singleton] at h
          subst h
          show ((k + 1) % 12 != 0) = false
          simp [hdiv]
    · rw [if_neg (by tauto)]
      constructor
      · rw [hlen]
        omega
      · exact hflags

/-- Shape of the final row list, for a positive loop bound `months`:
`⌈months / 12⌉` rows; all non-partial when `12 ∣ months`, otherwise
exactly the last row is partial. -/
theorem rows_shape (freq : ContributionFrequency) (amt principal monthlyRate : ℝ)
    (months : ℕ) (hM : months ≠ 0) :
    (runMonths freq amt principal monthlyRate months months).yearlyRows.length =
      (months + 11) / 12 ∧
    (months % 12 = 0 → ∀ row ∈ (runMonths freq amt principal monthlyRate months
        months).yearlyRows, row.isPartial = false) ∧
    (months % 12 ≠ 0 → ∃ r, (runMonths freq amt principal monthlyRate months
        months).yearlyRows.getLast? = some r ∧ r.isPartial = true ∧
      ∀ row ∈ (runMonths freq amt principal monthlyRate months
          months).yearlyRows.dropLast, row.isPartial = false) := by
  obtain ⟨hlen, hflags⟩ := rows_before_final freq amt principal monthlyRate months
    (months - 1) (by omega)
  have hfin := runMonths_final freq amt principal monthlyRate months hM
  rw [hfin]
  refine ⟨?_, ?_, ?_⟩
  · show ((runMonths freq amt principal monthlyRate months (months - 1)).yearlyRows ++
      [emittedRow freq amt principal monthlyRate months
        (runMonths freq amt principal monthlyRate months (months - 1))]).length = _
    rw [List.length_append, List.length_singleton, hlen]
    omega
  · intro hdiv row hrow
    have hrow' : row ∈ (runMonths freq amt principal monthlyRate months
        (months - 1)).yearlyRows ++
      [emittedRow freq amt principal monthlyRate months
        (runMonths freq amt principal monthlyRate months (months - 1))] := hrow
    rw [List.mem_append] at hrow'
    rcases hrow' with h | h
    · exact hflags row h
    · rw [List.mem_singleton] at h
      subst h
      show (months % 12 != 0) = false
      simp [hdiv]
  · intro hdiv
    refine ⟨emittedRow freq amt principal monthlyRate months
      (runMonths freq amt principal monthlyRate months (months - 1)), ?_, ?_, ?_⟩
    · show ((runMonths freq amt principal monthlyRate months (months - 1)).yearlyRows ++
        [emittedRow freq amt principal monthlyRate months
          (runMonths freq amt principal monthlyRate months (months - 1))]).getLast? = _
      simp
    · show (months % 12 != 0) = true
      simp [hdiv]
    · intro row hrow
      have hrow' : row ∈ ((runMonths freq amt principal monthlyRate months
          (months - 1)).yearlyRows ++
        [emittedRow freq amt principal monthlyRate months
          (runMonths freq amt principal monthlyRate months (months - 1))]).dropLast := hrow
      rw [List.dropLast_concat] at hrow'
      exact hflags row hrow'

/-- CLAIM C1 (amended): with `months = max(1, round(years * 12))`, the
number of rows is `⌈months / 12⌉ = (months + 11) / 12`; when `months` is
a whole multiple of 12 no row is partial, and otherwise exactly the last
row has `isPartial = true`. -/
theorem rowCount_and_partialFlag (input : CalculationInput) (_hy : 0 < input.years) :
    (calculateCompoundInterest input).yearlyRows.length =
      (monthsOf input.years + 11) / 12 ∧
    (monthsOf input.years % 12 = 0 →
      ∀ row ∈ (calculateCompoundInterest input).yearlyRows, row.isPartial = false) ∧
    (monthsOf input.years % 12 ≠ 0 →
      ∃ r, (calculateCompoundInterest input).yearlyRows.getLast? = some r ∧
        r.isPartial = true ∧
        ∀ row ∈ (calculateCompoundInterest input).yearlyRows.dropLast,
          row.isPartial = false) := by
  rw [calc_yearlyRows]
  exact rows_shape input.contributionFrequency input.contributionAmount input.principal
    (monthlyRateOf input.annualRatePercent input.compoundsPerYear)
    (monthsOf input.years) (Nat.pos_iff_ne_zero.mp (monthsOf_pos input.years))

/-- A concrete input used by witnesses: 1000 at 5%, two and a half years,
monthly compounding, no contributions. -/
noncomputable def halfYearInput : CalculationInput :=
  { principal := 1000, annualRatePercent := 5, years := 5 / 2,
    compoundsPerYear := 12, contributionAmount := 0,
    contributionFrequency := ContributionFrequency.monthly }

/-- Witness for the amended C1 at `halfYearInput` (`years = 2.5`). -/
theorem rowCount_and_partialFlag_witness :
    (0 : ℝ) < halfYearInput.years ∧
    ((calculateCompoundInterest halfYearInput).yearlyRows.length =
      (monthsOf halfYearInput.years + 11) / 12 ∧
    (monthsOf halfYearInput.years % 12 = 0 →
      ∀ row ∈ (calculateCompoundInterest halfYearInput).yearlyRows,
        row.isPartial = false) ∧
    (monthsOf halfYearInput.years % 12 ≠ 0 →
      ∃ r, (calculateCompoundInterest halfYearInput).yearlyRows.getLast? = some r ∧
        r.isPartial = true ∧
        ∀ row ∈ (calculateCompoundInterest halfYearInput).yearlyRows.dropLast,
          row.isPartial = false)) :=
  ⟨by simp only [halfYearInput]; norm_num,
   rowCount_and_partialFlag halfYearInput (by simp only [halfYearInput]; norm_num)⟩

/-- Evaluation of `round` at a concrete real from floor bounds. -/
theorem round_eq_of (x : ℝ) (z : ℤ) (h1 : (z : ℝ) ≤ x + 1 / 2)
    (h2 : x + 1 / 2 < z + 1) : round x = z := by
  rw [round_eq]
  exact Int.floor_eq_iff.mpr ⟨h1, h2⟩

/-- Evaluation of the loop bound from an evaluated `round`. -/
theorem monthsOf_eq (years : ℝ) (m : ℕ) (hm : 1 ≤ m)
    (h : round (years * 12) = (m : ℤ)) : monthsOf years = m := by
  unfold monthsOf
  rw [h, Int.toNat_natCast]
  exact Nat.max_eq_right hm

/-- CLAIM C7: a horizon under one month (`round(years * 12) ≤ 1` with
`0 < years`) produces exactly one row, partial, with `yearNumber = 1`. -/
theorem singleRow_under_one_month (input : CalculationInput) (_hy : 0 < input.years)
    (hr : round (input.years * 12) ≤ 1) :
    ∃ r, (calculateCompoundInterest input).yearlyRows = [r] ∧
      r.isPartial = true ∧ r.yearNumber = 1 := by
  have hM : monthsOf input.years = 1 := by
    unfold monthsOf
    have h2 : (round (input.years * 12)).toNat ≤ 1 :=
      Int.toNat_le.mpr (by exact_mod_cast hr)
    exact Nat.max_eq_left h2
  rw [calc_yearlyRows, hM]
  refine ⟨emittedRow input.contributionFrequency input.contributionAmount input.principal
    (monthlyRateOf input.annualRatePercent input.compoundsPerYear) 1
    (runMonths input.contributionFrequency input.contributionAmount input.principal
      (monthlyRateOf input.annualRatePercent input.compoundsPerYear) 1 0), ?_, rfl, rfl⟩
  rw [show runMonths input.contributionFrequency input.contributionAmount input.principal
      (monthlyRateOf input.annualRatePercent input.compoundsPerYear) 1 1 =
    step input.contributionFrequency input.contributionAmount input.principal
      (monthlyRateOf input.annualRatePercent input.compoundsPerYear) 1 1
      (runMonths input.contributionFrequency input.contributionAmount input.principal
        (monthlyRateOf input.annualRatePercent input.compoundsPerYear) 1 0) from rfl,
    step_yearlyRows, if_pos (Or.inr rfl)]
  rfl

/-- A concrete input whose horizon is exactly one month. -/
noncomputable def tinyInput : CalculationInput :=
  { principal := 500, annualRatePercent := 3, years := 1 / 12,
    compoundsPerYear := 4, contributionAmount := 20,
    contributionFrequency := ContributionFrequency.annual }

/-- Witness for C7 at `tinyInput` (`years = 1/12`). -/
theorem singleRow_under_one_month_witness :
    ((0 : ℝ) < tinyInput.years ∧ round (tinyInput.years * 12) ≤ 1) ∧
    ∃ r, (calculateCompoundInterest tinyInput).yearlyRows = [r] ∧
      r.isPartial = true ∧ r.yearNumber = 1 := by
  have hround : round (tinyInput.years * 12) ≤ 1 := by
    simp only [tinyInput]
    rw [show (1 / 12 : ℝ) * 12 = ((1 : ℕ) : ℝ) by norm_num, round_natCast]
    norm_num
  exact ⟨⟨by simp only [tinyInput]; norm_num, hround⟩,
    singleRow_under_one_month tinyInput (by simp only [tinyInput]; norm_num) hround⟩

/-- A concrete input on which claim C1 as stated fails: `years = 1.01`,
whose 12.12 months round to 12 simulated months. -/
noncomputable def roundedYearInput : CalculationInput :=
  { principal := 0, annualRatePercent := 0, years := 101 / 100,
    compoundsPerYear := 12, contributionAmount := 0,
    contributionFrequency := ContributionFrequency.monthly }

/-- COUNTEREXAMPLE to CLAIM C1 as stated: for `years = 1.01 > 0`,
`years * 12` is not an integer multiple of 12, yet the result has a
single row rather than `ceil(years) = 2` rows, and no row is partial
(the claim demands the last row be partial in this case). -/
theorem rowCount_claim_counterexample :
    (0 : ℝ) < roundedYearInput.years ∧
    (¬ ∃ k : ℤ, roundedYearInput.years * 12 = 12 * (k : ℝ)) ∧
    ⌈roundedYearInput.years⌉ = 2 ∧
    (calculateCompoundInterest roundedYearInput).yearlyRows.length = 1 ∧
    ∀ row ∈ (calculateCompoundInterest roundedYearInput).yearlyRows,
      row.isPartial = false := by
  have hyears : roundedYearInput.years = (101 / 100 : ℝ) := rfl
  have hM : monthsOf roundedYearInput.years = 12 := by
    apply monthsOf_eq _ 12 (by norm_num)
    rw [hyears]
    apply round_eq_of <;> push_cast <;> norm_num
  obtain ⟨hlen, hflags, -⟩ := rows_shape roundedYearInput.contributionFrequency
    roundedYearInput.contributionAmount roundedYearInput.principal
    (monthlyRateOf roundedYearInput.annualRatePercent roundedYearInput.compoundsPerYear)
    12 (by norm_num)
  refine ⟨by rw [hyears]; norm_num, ?_, ?_, ?_, ?_⟩
  · rintro ⟨k, hk⟩
    rw [hyears] at hk
    have h1 : (k : ℝ) = 101 / 100 := by linarith
    have h2 : (1 : ℝ) < (k : ℝ) := by rw [h1]; norm_num
    have h3 : (k : ℝ) < 2 := by rw [h1]; norm_num
    have h4 : (1 : ℤ) < k := by exact_mod_cast h2
    have h5 : k < 2 := by exact_mod_cast h3
    omega
  · rw [hyears, Int.ceil_eq_iff]
    constructor <;> norm_num
  · rw [calc_yearlyRows, hM, hlen]
  · intro row hrow
    rw [calc_yearlyRows, hM] at hrow
    exact hflags (by norm_num) row hrow

/-- Spec-side definition (§4.1 step 2, written from the spec's words):
the number of monthly simulation steps `months = max(1, round(years * 12))`. -/
noncomputable def specMonths (years : ℝ) : ℕ :=
  max 1 (round (years * 12)).toNat

/-- Spec-side definition (§4.1 step 3, written from the spec's words):
`monthlyRate = (1 + annualRate / compoundsPerYear) ^ (compoundsPerYear / 12) - 1`
with `annualRate = annualRatePercent / 100`. -/
noncomputable def specMonthlyRate (annualRatePercent compoundsPerYear : ℝ) : ℝ :=
  (1 + (annualRatePercent / 100) / compoundsPerYear) ^ (compoundsPerYear / 12) - 1

/-- CLAIM C3: the engine's step count and effective monthly rate are
exactly the spec's `months = max(1, round(years * 12))` and
`monthlyRate = (1 + annualRate/compoundsPerYear)^(compoundsPerYear/12) - 1`,
and the whole result is the month-by-month simulation driven by exactly
these two quantities, whatever the compounding frequency. -/
theorem engine_uses_spec_months_and_rate (input : CalculationInput) :
    monthsOf input.years = specMonths input.years ∧
    monthlyRateOf input.annualRatePercent input.compoundsPerYear =
      specMonthlyRate input.annualRatePercent input.compoundsPerYear ∧
    calculateCompoundInterest input =
      { finalAmount := (runMonths input.contributionFrequency input.contributionAmount
          input.principal (specMonthlyRate input.annualRatePercent input.compoundsPerYear)
          (specMonths input.years) (specMonths input.years)).balance
        totalContributions := (runMonths input.contributionFrequency
          input.contributionAmount input.principal
          (specMonthlyRate input.annualRatePercent input.compoundsPerYear)
          (specMonths input.years) (specMonths input.years)).totalContributions
        totalInterest := (runMonths input.contributionFrequency input.contributionAmount
          input.principal (specMonthlyRate input.annualRatePercent input.compoundsPerYear)
          (specMonths input.years) (specMonths input.years)).balance -
          (runMonths input.contributionFrequency input.contributionAmount
            input.principal (specMonthlyRate input.annualRatePercent
              input.compoundsPerYear)
            (specMonths input.years) (specMonths input.years)).totalContributions
        yearlyRows := (runMonths input.contributionFrequency input.contributionAmount
          input.principal (specMonthlyRate input.annualRatePercent input.compoundsPerYear)
          (specMonths input.years) (specMonths input.years)).yearlyRows } :=
  ⟨rfl, rfl, rfl⟩

/-- CLAIM C4: in every simulated month `1 ≤ m ≤ months` the balance is
updated by `balance * (1 + monthlyRate) + contributionThisMonth` (growth
first, then deposit), where the contribution is the full amount every
month for monthly frequency and only when `m % 12 = 0` for annual. -/
theorem monthly_update_rule (input : CalculationInput) (m : ℕ) (h1 : 1 ≤ m)
    (_h2 : m ≤ monthsOf input.years) :
    (runMonths input.contributionFrequency input.contributionAmount input.principal
        (monthlyRateOf input.annualRatePercent input.compoundsPerYear)
        (monthsOf input.years) m).balance =
      (runMonths input.contributionFrequency input.contributionAmount input.principal
        (monthlyRateOf input.annualRatePercent input.compoundsPerYear)
        (monthsOf input.years) (m - 1)).balance *
        (1 + monthlyRateOf input.annualRatePercent input.compoundsPerYear) +
        contributionThisMonth input.contributionFrequency input.contributionAmount m ∧
    (input.contributionFrequency = ContributionFrequency.monthly →
      contributionThisMonth input.contributionFrequency input.contributionAmount m =
        input.contributionAmount) ∧
    (input.contributionFrequency = ContributionFrequency.annual →
      contributionThisMonth input.contributionFrequency input.contributionAmount m =
        if m % 12 = 0 then input.contributionAmount else 0) := by
  obtain ⟨k, rfl⟩ : ∃ k, m = k + 1 := ⟨m - 1, by omega⟩
  refine ⟨?_, ?_, ?_⟩
  · show (step input.contributionFrequency input.contributionAmount input.principal
      (monthlyRateOf input.annualRatePercent input.compoundsPerYear)
      (monthsOf input.years) (k + 1)
      (runMonths input.contributionFrequency input.contributionAmount input.principal
        (monthlyRateOf input.annualRatePercent input.compoundsPerYear)
        (monthsOf input.years) k)).balance = _
    rw [step_balance]
    rfl
  · intro hf
    simp [contributionThisMonth, hf]
  · intro hf
    simp only [contributionThisMonth, hf]
    split
    · rename_i hcon
      exact absurd hcon (by intro h; cases h)
    · by_cases h : (k + 1) % 12 = 0
      · simp [h]
      · simp [h]

/-- Witness for C4 at `halfYearInput` (`years = 2.5`, so 30 months) and
month `m = 5`. -/
theorem monthly_update_rule_witness :
    (1 ≤ 5 ∧ 5 ≤ monthsOf halfYearInput.years) ∧
    ((runMonths halfYearInput.contributionFrequency halfYearInput.contributionAmount
        halfYearInput.principal (monthlyRateOf halfYearInput.annualRatePercent
          halfYearInput.compoundsPerYear)
        (monthsOf halfYearInput.years) 5).balance =
      (runMonths halfYearInput.contributionFrequency halfYearInput.contributionAmount
        halfYearInput.principal (monthlyRateOf halfYearInput.annualRatePercent
          halfYearInput.compoundsPerYear)
        (monthsOf halfYearInput.years) 4).balance *
        (1 + monthlyRateOf halfYearInput.annualRatePercent
          halfYearInput.compoundsPerYear) +
        contributionThisMonth halfYearInput.contributionFrequency
          halfYearInput.contributionAmount 5 ∧
    (halfYearInput.contributionFrequency = ContributionFrequency.monthly →
      contributionThisMonth halfYearInput.contributionFrequency
        halfYearInput.contributionAmount 5 = halfYearInput.contributionAmount) ∧
    (halfYearInput.contributionFrequency = ContributionFrequency.annual →
      contributionThisMonth halfYearInput.contributionFrequency
        halfYearInput.contributionAmount 5 =
        if 5 % 12 = 0 then halfYearInput.contributionAmount else 0)) := by
  have hM : monthsOf halfYearInput.years = 30 := by
    apply monthsOf_eq _ 30 (by norm_num)
    show round (((5 : ℝ) / 2) * 12) = ((30 : ℕ) : ℤ)
    rw [show ((5 : ℝ) / 2) * 12 = ((30 : ℕ) : ℝ) by norm_num, round_natCast]
  have h2 : 5 ≤ monthsOf halfYearInput.years := by rw [hM]; norm_num
  exact ⟨⟨by norm_num, h2⟩, monthly_update_rule halfYearInput 5 (by norm_num) h2⟩

/-- The result's `totalInterest` is final balance minus final contributions. -/
theorem calc_totalInterest (input : CalculationInput) :
    (calculateCompoundInterest input).totalInterest =
      (runMonths input.contributionFrequency input.contributionAmount input.principal
        (monthlyRateOf input.annualRatePercent input.compoundsPerYear)
        (monthsOf input.years) (monthsOf input.years)).balance -
      (runMonths input.contributionFrequency input.contributionAmount input.principal
        (monthlyRateOf input.annualRatePercent input.compoundsPerYear)
        (monthsOf input.years) (monthsOf input.years)).totalContributions := rfl

/-- The `previousTotalContributions` read by the loop body: the last
row's `totalContributions`, or the base (`principal`) if no row exists. -/
def lastTotalContributions (base : ℝ) (rows : List YearlyRow) : ℝ :=
  match rows.getLast? with
  | some r => r.totalContributions
  | none => base

/-- The previous row's `totalInterest`, or the base (`0` at the top
level, since `principal - principal = 0`) if no row exists. -/
def lastTotalInterest (base : ℝ) (rows : List YearlyRow) : ℝ :=
  match rows.getLast? with
  | some r => r.totalInterest
  | none => base

/-- Each row's `yearlyContributions` is the difference between its
`totalContributions` and the previous row's (base before the first). -/
def contribDeltas : ℝ → List YearlyRow → Prop
  | _, [] => True
  | prev, r :: rs =>
    r.yearlyContributions = r.totalContributions - prev ∧
      contribDeltas r.totalContributions rs

/-- Each row's `yearlyInterest` is the difference between its
`totalInterest` and the previous row's (base before the first). -/
def interestDeltas : ℝ → List YearlyRow → Prop
  | _, [] => True
  | prev, r :: rs =>
    r.yearlyInterest = r.totalInterest - prev ∧
      interestDeltas r.totalInterest rs

/-- Peeling one row off `lastTotalContributions`. -/
theorem lastTotalContributions_cons (base : ℝ) (r : YearlyRow) (rs : List YearlyRow) :
    lastTotalContributions base (r :: rs) =
      lastTotalContributions r.totalContributions rs := by
  cases rs with
  | nil => rfl
  | cons a l =>
    unfold lastTotalContributions
    rw [List.getLast?_cons_cons]
    cases h : (a :: l).getLast? with
    | none => exact absurd h (by simp)
    | some x => rfl

/-- Peeling one row off `lastTotalInterest`. -/
theorem lastTotalInterest_cons (base : ℝ) (r : YearlyRow) (rs : List YearlyRow) :
    lastTotalInterest base (r :: rs) = lastTotalInterest r.totalInterest rs := by
  cases rs with
  | nil => rfl
  | cons a l =>
    unfold lastTotalInterest
    rw [List.getLast?_cons_cons]
    cases h : (a :: l).getLast? with
    | none => exact absurd h (by simp)
    | some x => rfl

/-- The last of a non-empty row list. -/
theorem lastTotalContributions_concat (base : ℝ) (l : List YearlyRow) (r : YearlyRow) :
    lastTotalContributions base (l ++ [r]) = r.totalContributions := by
  simp [lastTotalContributions]

/-- The last of a non-empty row list, interest version. -/
theorem lastTotalInterest_concat (base : ℝ) (l : List YearlyRow) (r : YearlyRow) :
    lastTotalInterest base (l ++ [r]) = r.totalInterest := by
  simp [lastTotalInterest]

/-- The contribution deltas over a list telescope to last minus base. -/
theorem contribDeltas_sum : ∀ (l : List YearlyRow) (base : ℝ), contribDeltas base l →
    (l.map YearlyRow.yearlyContributions).sum = lastTotalContributions base l - base := by
  intro l
  induction l with
  | nil =>
    intro base _
    simp [lastTotalContributions]
  | cons r rs ih =>
    intro base h
    rw [List.map_cons, List.sum_cons, ih r.totalContributions h.2, h.1,
      lastTotalContributions_cons]
    ring

/-- The interest deltas over a list telescope to last minus base. -/
theorem interestDeltas_sum : ∀ (l : List YearlyRow) (base : ℝ), interestDeltas base l →
    (l.map YearlyRow.yearlyInterest).sum = lastTotalInterest base l - base := by
  intro l
  induction l with
  | nil =>
    intro base _
    simp [lastTotalInterest]
  | cons r rs ih =>
    intro base h
    rw [List.map_cons, List.sum_cons, ih r.totalInterest h.2, h.1,
      lastTotalInterest_cons]
    ring

/-- Appending a row whose delta matches the current last extends the
contribution-delta chain. -/
theorem contribDeltas_append : ∀ (l : List YearlyRow) (base : ℝ) (r : YearlyRow),
    contribDeltas base l →
    r.yearlyContributions = r.totalContributions - lastTotalContributions base l →
    contribDeltas base (l ++ [r]) := by
  intro l
  induction l with
  | nil =>
    intro base r _ hr
    exact ⟨hr, trivial⟩
  | cons a l ih =>
    intro base r h hr
    refine ⟨h.1, ih a.totalContributions r h.2 ?_⟩
    rw [hr, lastTotalContributions_cons]

/-- Appending a row whose delta matches the current last extends the
interest-delta chain. -/
theorem interestDeltas_append : ∀ (l : List YearlyRow) (base : ℝ) (r : YearlyRow),
    interestDeltas base l →
    r.yearlyInterest = r.totalInterest - lastTotalInterest base l →
    interestDeltas base (l ++ [r]) := by
  intro l
  induction l with
  | nil =>
    intro base r _ hr
    exact ⟨hr, trivial⟩
  | cons a l ih =>
    intro base r h hr
    refine ⟨h.1, ih a.totalInterest r h.2 ?_⟩
    rw [hr, lastTotalInterest_cons]

/-- The emitted row's per-year figures are exactly the deltas against
the previous row (`principal`, resp. `0`, as base for the first row);
the interest delta uses the per-row identity on the previous row. -/
theorem emittedRow_deltas (freq : ContributionFrequency) (amt principal monthlyRate : ℝ)
    (month : ℕ) (s : LoopState)
    (hTI : ∀ row ∈ s.yearlyRows, row.totalInterest = row.endBalance - row.totalContributions) :
    (emittedRow freq amt principal monthlyRate month s).yearlyContributions =
      (emittedRow freq amt principal monthlyRate month s).totalContributions -
        lastTotalContributions principal s.yearlyRows ∧
    (emittedRow freq amt principal monthlyRate month s).yearlyInterest =
      (emittedRow freq amt principal monthlyRate month s).totalInterest -
        lastTotalInterest 0 s.yearlyRows := by
  cases hLast : s.yearlyRows.getLast? with
  | none =>
    constructor
    · simp [emittedRow, lastTotalContributions, hLast]
    · simp only [emittedRow, lastTotalInterest, hLast]
      ring
  | some r =>
    have hrmem : r ∈ s.yearlyRows := by
      obtain ⟨h, hx⟩ := List.mem_getLast?_eq_getLast hLast
      rw [hx]
      exact List.getLast_mem h
    have hr := hTI r hrmem
    constructor
    · simp [emittedRow, lastTotalContributions, hLast]
    · simp only [emittedRow, lastTotalInterest, hLast]
      rw [hr]
      ring

/-- Loop invariant: the accumulated rows always satisfy both delta
chains, with `principal` (resp. `0`) as base. -/
theorem rows_deltas (freq : ContributionFrequency) (amt principal monthlyRate : ℝ)
    (months : ℕ) : ∀ n,
    contribDeltas principal
      (runMonths freq amt principal monthlyRate months n).yearlyRows ∧
    interestDeltas 0 (runMonths freq amt principal monthlyRate months n).yearlyRows := by
  intro n
  induction n with
  | zero => exact ⟨trivial, trivial⟩
  | succ k ih =>
    rw [show runMonths freq amt principal monthlyRate months (k + 1) =
        step freq amt principal monthlyRate months (k + 1)
          (runMonths freq amt principal monthlyRate months k) from rfl,
      step_yearlyRows]
    by_cases hc : (k + 1) % 12 = 0 ∨ k + 1 = months
    · rw [if_pos hc]
      have hd := emittedRow_deltas freq amt principal monthlyRate (k + 1)
        (runMonths freq amt principal monthlyRate months k)
        (rows_totalInterest_eq freq amt principal monthlyRate months k)
      exact ⟨contribDeltas_append _ _ _ ih.1 hd.1,
        interestDeltas_append _ _ _ ih.2 hd.2⟩
    · rw [if_neg hc]
      exact ih

/-- CLAIM C5: row-by-row, `yearlyContributions` and `yearlyInterest` are
exactly the differences of consecutive rows' `totalContributions` and
`totalInterest` (base `principal`, resp. `0 = principal - principal`),
and the yearly deltas telescope exactly: the contributions sum to
`totalContributions - principal` and the interests to `totalInterest`. -/
theorem yearly_deltas_telescope (input : CalculationInput) :
    contribDeltas input.principal (calculateCompoundInterest input).yearlyRows ∧
    interestDeltas 0 (calculateCompoundInterest input).yearlyRows ∧
    ((calculateCompoundInterest input).yearlyRows.map
        YearlyRow.yearlyContributions).sum =
      (calculateCompoundInterest input).totalContributions - input.principal ∧
    ((calculateCompoundInterest input).yearlyRows.map YearlyRow.yearlyInterest).sum =
      (calculateCompoundInterest input).totalInterest := by
  obtain ⟨hc, hi⟩ := rows_deltas input.contributionFrequency input.contributionAmount
    input.principal (monthlyRateOf input.annualRatePercent input.compoundsPerYear)
    (monthsOf input.years) (monthsOf input.years)
  have hfin := runMonths_final input.contributionFrequency input.contributionAmount
    input.principal (monthlyRateOf input.annualRatePercent input.compoundsPerYear)
    (monthsOf input.years) (Nat.pos_iff_ne_zero.mp (monthsOf_pos input.years))
  rw [calc_yearlyRows, calc_totalContributions, calc_totalInterest]
  refine ⟨hc, hi, ?_, ?_⟩
  · rw [contribDeltas_sum _ _ hc]
    congr 1
    rw [hfin, lastTotalContributions_concat]
  · rw [interestDeltas_sum _ _ hi, hfin, lastTotalInterest_concat]
    show (emittedRow input.contributionFrequency input.contributionAmount input.principal
        (monthlyRateOf input.annualRatePercent input.compoundsPerYear)
        (monthsOf input.years)
        (runMonths input.contributionFrequency input.contributionAmount input.principal
          (monthlyRateOf input.annualRatePercent input.compoundsPerYear)
          (monthsOf input.years) (monthsOf input.years - 1))).totalInterest - 0 = _
    rw [sub_zero]
    rfl

/-- Unfolding one iteration: the balance. -/
theorem runMonths_succ_balance (freq : ContributionFrequency)
    (amt principal monthlyRate : ℝ) (months k : ℕ) :
    (runMonths freq amt principal monthlyRate months (k + 1)).balance =
      (runMonths freq amt principal monthlyRate months k).balance * (1 + monthlyRate) +
        contributionThisMonth freq amt (k + 1) :=
  step_balance freq amt principal monthlyRate months (k + 1)
    (runMonths freq amt principal monthlyRate months k)

/-- Unfolding one iteration: the contribution total. -/
theorem runMonths_succ_totalContributions (freq : ContributionFrequency)
    (amt principal monthlyRate : ℝ) (months k : ℕ) :
    (runMonths freq amt principal monthlyRate months (k + 1)).totalContributions =
      (runMonths freq amt principal monthlyRate months k).totalContributions +
        contributionThisMonth freq amt (k + 1) :=
  step_totalContributions freq amt principal monthlyRate months (k + 1)
    (runMonths freq amt principal monthlyRate months k)

/-- Unfolding one iteration: the rows. -/
theorem runMonths_succ_yearlyRows (freq : ContributionFrequency)
    (amt principal monthlyRate : ℝ) (months k : ℕ) :
    (runMonths freq amt principal monthlyRate months (k + 1)).yearlyRows =
      if (k + 1) % 12 = 0 ∨ k + 1 = months then
        (runMonths freq amt principal monthlyRate months k).yearlyRows ++
          [emittedRow freq amt principal monthlyRate (k + 1)
            (runMonths freq amt principal monthlyRate months k)]
      else (runMonths freq amt principal monthlyRate months k).yearlyRows :=
  step_yearlyRows freq amt principal monthlyRate months (k + 1)
    (runMonths freq amt principal monthlyRate months k)

/-- The emitted row's running total is the updated state total. -/
theorem emittedRow_totalContributions (freq : ContributionFrequency)
    (amt principal monthlyRate : ℝ) (month : ℕ) (s : LoopState) :
    (emittedRow freq amt principal monthlyRate month s).totalContributions =
      s.totalContributions + contributionThisMonth freq amt month := rfl

/-- The emitted row's end balance is the updated state balance. -/
theorem emittedRow_endBalance (freq : ContributionFrequency)
    (amt principal monthlyRate : ℝ) (month : ℕ) (s : LoopState) :
    (emittedRow freq amt principal monthlyRate month s).endBalance =
      s.balance * (1 + monthlyRate) + contributionThisMonth freq amt month := rfl

/-- A non-negative contribution amount gives non-negative monthly deposits. -/
theorem contributionThisMonth_nonneg (freq : ContributionFrequency) (amt : ℝ)
    (month : ℕ) (h : 0 ≤ amt) : 0 ≤ contributionThisMonth freq amt month := by
  unfold contributionThisMonth
  split_ifs <;> simp [h]

/-- A zero contribution amount gives zero monthly deposits. -/
theorem contributionThisMonth_zero (freq : ContributionFrequency) (month : ℕ) :
    contributionThisMonth freq 0 month = 0 := by
  unfold contributionThisMonth
  split_ifs <;> rfl

/-- Loop invariant for C8: the contribution total starts at `principal`
and never decreases, and the rows record it in non-decreasing order. -/
theorem totals_invariant (freq : ContributionFrequency)
    (amt principal monthlyRate : ℝ) (months : ℕ) (ha : 0 ≤ amt) : ∀ n,
    principal ≤ (runMonths freq amt principal monthlyRate months n).totalContributions ∧
    (∀ row ∈ (runMonths freq amt principal monthlyRate months n).yearlyRows,
      principal ≤ row.totalContributions ∧
      row.totalContributions ≤
        (runMonths freq amt principal monthlyRate months n).totalContributions) ∧
    List.Pairwise (fun r r' => r.totalContributions ≤ r'.totalContributions)
      (runMonths freq amt principal monthlyRate months n).yearlyRows := by
  intro n
  induction n with
  | zero =>
    exact ⟨le_refl _, fun row h => absurd h (List.not_mem_nil row), List.Pairwise.nil⟩
  | succ k ih =>
    obtain ⟨h1, h2, h3⟩ := ih
    have hc0 : 0 ≤ contributionThisMonth freq amt (k + 1) :=
      contributionThisMonth_nonneg freq amt (k + 1) ha
    have hmono : (runMonths freq amt principal monthlyRate months k).totalContributions ≤
        (runMonths freq amt principal monthlyRate months (k + 1)).totalContributions := by
      rw [runMonths_succ_totalContributions]
      linarith
    rw [runMonths_succ_yearlyRows]
    by_cases hcond : (k + 1) % 12 = 0 ∨ k + 1 = months
    · rw [if_pos hcond]
      have hemit : (emittedRow freq amt principal monthlyRate (k + 1)
          (runMonths freq amt principal monthlyRate months k)).totalContributions =
          (runMonths freq amt principal monthlyRate months (k + 1)).totalContributions := by
        rw [emittedRow_totalContributions, runMonths_succ_totalContributions]
      refine ⟨le_trans h1 hmono, ?_, ?_⟩
      · intro row hrow
        rw [List.mem_append] at hrow
        rcases hrow with hrow | hrow
        · exact ⟨(h2 row hrow).1, le_trans (h2 row hrow).2 hmono⟩
        · rw [List.mem_singleton] at hrow
          subst hrow
          rw [hemit]
          exact ⟨le_trans h1 hmono, le_refl _⟩
      · rw [List.pairwise_append]
        refine ⟨h3, List.pairwise_singleton _ _, ?_⟩
        intro a hma b hmb
        rw [List.mem_singleton] at hmb
        subst hmb
        rw [hemit]
        exact le_trans (h2 a hma).2 hmono
    · rw [if_neg hcond]
      exact ⟨le_trans h1 hmono, fun row hrow =>
        ⟨(h2 row hrow).1, le_trans (h2 row hrow).2 hmono⟩, h3⟩

/-- With a zero contribution amount the contribution total is constant,
equal to `principal`, in the state and in every row. -/
theorem totals_const_of_zero (freq : ContributionFrequency)
    (principal monthlyRate : ℝ) (months : ℕ) : ∀ n,
    (runMonths freq 0 principal monthlyRate months n).totalContributions = principal ∧
    ∀ row ∈ (runMonths freq 0 principal monthlyRate months n).yearlyRows,
      row.totalContributions = principal := by
  intro n
  induction n with
  | zero => exact ⟨rfl, fun row h => absurd h (List.not_mem_nil row)⟩
  | succ k ih =>
    obtain ⟨h1, h2⟩ := ih
    have hTC : (runMonths freq 0 principal monthlyRate months (k + 1)).totalContributions
        = principal := by
      rw [runMonths_succ_totalContributions, contributionThisMonth_zero, add_zero, h1]
    refine ⟨hTC, ?_⟩
    rw [runMonths_succ_yearlyRows]
    by_cases hcond : (k + 1) % 12 = 0 ∨ k + 1 = months
    · rw [if_pos hcond]
      intro row hrow
      rw [List.mem_append] at hrow
      rcases hrow with hrow | hrow
      · exact h2 row hrow
      · rw [List.mem_singleton] at hrow
        subst hrow
        rw [emittedRow_totalContributions, contributionThisMonth_zero, add_zero, h1]
    · rw [if_neg hcond]
      exact h2

/-- CLAIM C8: with `contributionAmount ≥ 0` the rows' `totalContributions`
are non-decreasing and every row's total is at least `principal` (the
total is seeded with `principal` before the loop); with
`contributionAmount = 0` every row's total and the final total equal
`principal`. -/
theorem totalContributions_monotone (input : CalculationInput)
    (ha : 0 ≤ input.contributionAmount) :
    List.Pairwise (fun r r' => r.totalContributions ≤ r'.totalContributions)
      (calculateCompoundInterest input).yearlyRows ∧
    (∀ row ∈ (calculateCompoundInterest input).yearlyRows,
      input.principal ≤ row.totalContributions) ∧
    (input.contributionAmount = 0 →
      (calculateCompoundInterest input).totalContributions = input.principal ∧
      ∀ row ∈ (calculateCompoundInterest input).yearlyRows,
        row.totalContributions = input.principal) := by
  obtain ⟨-, h2, h3⟩ := totals_invariant input.contributionFrequency
    input.contributionAmount input.principal
    (monthlyRateOf input.annualRatePercent input.compoundsPerYear)
    (monthsOf input.years) ha (monthsOf input.years)
  rw [calc_yearlyRows, calc_totalContributions]
  refine ⟨h3, fun row hrow => (h2 row hrow).1, ?_⟩
  intro h0
  rw [h0]
  exact totals_const_of_zero input.contributionFrequency input.principal
    (monthlyRateOf input.annualRatePercent input.compoundsPerYear)
    (monthsOf input.years) (monthsOf input.years)

/-- Witness for C8 at `halfYearInput` (zero contribution amount). -/
theorem totalContributions_monotone_witness :
    (0 : ℝ) ≤ halfYearInput.contributionAmount ∧
    (List.Pairwise (fun r r' => r.totalContributions ≤ r'.totalContributions)
      (calculateCompoundInterest halfYearInput).yearlyRows ∧
    (∀ row ∈ (calculateCompoundInterest halfYearInput).yearlyRows,
      halfYearInput.principal ≤ row.totalContributions) ∧
    (halfYearInput.contributionAmount = 0 →
      (calculateCompoundInterest halfYearInput).totalContributions =
        halfYearInput.principal ∧
      ∀ row ∈ (calculateCompoundInterest halfYearInput).yearlyRows,
        row.totalContributions = halfYearInput.principal)) :=
  ⟨le_refl 0, totalContributions_monotone halfYearInput (le_refl 0)⟩

/-- With a non-negative nominal rate and positive compounding frequency
the effective monthly rate is non-negative: the base `1 + (r/100)/n` is
at least 1 and the exponent `n/12` is non-negative. -/
theorem monthlyRateOf_nonneg (annualRatePercent compoundsPerYear : ℝ)
    (hr : 0 ≤ annualRatePercent) (hc : 0 < compoundsPerYear) :
    0 ≤ monthlyRateOf annualRatePercent compoundsPerYear := by
  unfold monthlyRateOf
  have hbase : (1 : ℝ) ≤ 1 + (annualRatePercent / 100) / compoundsPerYear := by
    have h0 : 0 ≤ (annualRatePercent / 100) / compoundsPerYear :=
      div_nonneg (div_nonneg hr (by norm_num)) hc.le
    linarith
  have hexp : (0 : ℝ) ≤ compoundsPerYear / 12 := div_nonneg hc.le (by norm_num)
  have hpow := Real.one_le_rpow hbase hexp
  linarith

/-- Loop invariant for C10: with non-negative principal, deposits and
monthly rate, the balance starts at `principal` and never decreases, and
the rows record it in non-decreasing order. -/
theorem balances_invariant (freq : ContributionFrequency)
    (amt principal monthlyRate : ℝ) (months : ℕ)
    (hp : 0 ≤ principal) (ha : 0 ≤ amt) (hr : 0 ≤ monthlyRate) : ∀ n,
    principal ≤ (runMonths freq amt principal monthlyRate months n).balance ∧
    (∀ row ∈ (runMonths freq amt principal monthlyRate months n).yearlyRows,
      principal ≤ row.endBalance ∧
      row.endBalance ≤ (runMonths freq amt principal monthlyRate months n).balance) ∧
    List.Pairwise (fun r r' => r.endBalance ≤ r'.endBalance)
      (runMonths freq amt principal monthlyRate months n).yearlyRows := by
  intro n
  induction n with
  | zero =>
    exact ⟨le_refl _, fun row h => absurd h (List.not_mem_nil row), List.Pairwise.nil⟩
  | succ k ih =>
    obtain ⟨h1, h2, h3⟩ := ih
    have hc0 : 0 ≤ contributionThisMonth freq amt (k + 1) :=
      contributionThisMonth_nonneg freq amt (k + 1) ha
    have hbk : 0 ≤ (runMonths freq amt principal monthlyRate months k).balance :=
      le_trans hp h1
    have hmono : (runMonths freq amt principal monthlyRate months k).balance ≤
        (runMonths freq amt principal monthlyRate months (k + 1)).balance := by
      rw [runMonths_succ_balance]
      have hbr : 0 ≤ (runMonths freq amt principal monthlyRate months k).balance *
          monthlyRate := mul_nonneg hbk hr
      nlinarith
    rw [runMonths_succ_yearlyRows]
    by_cases hcond : (k + 1) % 12 = 0 ∨ k + 1 = months
    · rw [if_pos hcond]
      have hemit : (emittedRow freq amt principal monthlyRate (k + 1)
          (runMonths freq amt principal monthlyRate months k)).endBalance =
          (runMonths freq amt principal monthlyRate months (k + 1)).balance := by
        rw [emittedRow_endBalance, runMonths_succ_balance]
      refine ⟨le_trans h1 hmono, ?_, ?_⟩
      · intro row hrow
        rw [List.mem_append] at hrow
        rcases hrow with hrow | hrow
        · exact ⟨(h2 row hrow).1, le_trans (h2 row hrow).2 hmono⟩
        · rw [List.mem_singleton] at hrow
          subst hrow
          rw [hemit]
          exact ⟨le_trans h1 hmono, le_refl _⟩
      · rw [List.pairwise_append]
        refine ⟨h3, List.pairwise_singleton _ _, ?_⟩
        intro a hma b hmb
        rw [List.mem_singleton] at hmb
        subst hmb
        rw [hemit]
        exact le_trans (h2 a hma).2 hmono
    · rw [if_neg hcond]
      exact ⟨le_trans h1 hmono, fun row hrow =>
        ⟨(h2 row hrow).1, le_trans (h2 row hrow).2 hmono⟩, h3⟩

/-- CLAIM C10: with `principal ≥ 0`, `annualRatePercent ≥ 0`,
`compoundsPerYear > 0` and `contributionAmount ≥ 0`, every row's
`endBalance` is non-negative and at least `principal` (in particular the
first row's), and the rows' `endBalance` never shrinks between rows. -/
theorem endBalance_nonneg_and_monotone (input : CalculationInput)
    (hp : 0 ≤ input.principal) (hr : 0 ≤ input.annualRatePercent)
    (hc : 0 < input.compoundsPerYear) (ha : 0 ≤ input.contributionAmount) :
    (∀ row ∈ (calculateCompoundInterest input).yearlyRows, 0 ≤ row.endBalance) ∧
    (∀ row ∈ (calculateCompoundInterest input).yearlyRows,
      input.principal ≤ row.endBalance) ∧
    List.Pairwise (fun r r' => r.endBalance ≤ r'.endBalance)
      (calculateCompoundInterest input).yearlyRows := by
  obtain ⟨-, h2, h3⟩ := balances_invariant input.contributionFrequency
    input.contributionAmount input.principal
    (monthlyRateOf input.annualRatePercent input.compoundsPerYear)
    (monthsOf input.years) hp ha
    (monthlyRateOf_nonneg input.annualRatePercent input.compoundsPerYear hr hc)
    (monthsOf input.years)
  rw [calc_yearlyRows]
  exact ⟨fun row hrow => le_trans hp (h2 row hrow).1,
    fun row hrow => (h2 row hrow).1, h3⟩

/-- A concrete input with contributions, for the C10 witness. -/
noncomputable def contribInput : CalculationInput :=
  { principal := 2000, annualRatePercent := 4, years := 3,
    compoundsPerYear := 4, contributionAmount := 100,
    contributionFrequency := ContributionFrequency.monthly }

/-- Witness for C10 at `contribInput`. -/
theorem endBalance_nonneg_and_monotone_witness :
    ((0 : ℝ) ≤ contribInput.principal ∧ (0 : ℝ) ≤ contribInput.annualRatePercent ∧
      (0 : ℝ) < contribInput.compoundsPerYear ∧
      (0 : ℝ) ≤ contribInput.contributionAmount) ∧
    ((∀ row ∈ (calculateCompoundInterest contribInput).yearlyRows,
        0 ≤ row.endBalance) ∧
    (∀ row ∈ (calculateCompoundInterest contribInput).yearlyRows,
      contribInput.principal ≤ row.endBalance) ∧
    List.Pairwise (fun r r' => r.endBalance ≤ r'.endBalance)
      (calculateCompoundInterest contribInput).yearlyRows) :=
  ⟨⟨by norm_num [contribInput], by norm_num [contribInput], by norm_num [contribInput],
    by norm_num [contribInput]⟩,
   endBalance_nonneg_and_monotone contribInput (by norm_num [contribInput])
    (by norm_num [contribInput]) (by norm_num [contribInput])
    (by norm_num [contribInput])⟩

/-- The simulation loop with an explicit iteration budget: starting at
`month` with `fuel` iterations allowed, run the loop body until
`month > months`; return `none` if the budget is exhausted first. This
makes the loop's termination bound explicit. -/
def loopFuel (freq : ContributionFrequency) (amt principal monthlyRate : ℝ)
    (months : ℕ) : ℕ → ℕ → LoopState → Option LoopState
  | 0, month, s => if months < month then some s else none
  | fuel + 1, month, s =>
    if months < month then some s
    else
      loopFuel freq amt principal monthlyRate months fuel (month + 1)
        (step freq amt principal monthlyRate months month s)

/-- The engine with its two partiality sources made explicit: the
division `annualRate / compoundsPerYear` (a guard for
`compoundsPerYear = 0`, where the mathematical division is undefined)
and the loop bound (an iteration budget of exactly `months`). -/
noncomputable def calculateCompoundInterestChecked (input : CalculationInput) :
    Option CalculationResult :=
  if input.compoundsPerYear = 0 then none
  else
    match loopFuel input.contributionFrequency input.contributionAmount
      input.principal (monthlyRateOf input.annualRatePercent input.compoundsPerYear)
      (monthsOf input.years) (monthsOf input.years) 1 (initState input.principal) with
    | some final => some
        { finalAmount := final.balance
          totalContributions := final.totalContributions
          totalInterest := final.balance - final.totalContributions
          yearlyRows := final.yearlyRows }
    | none => none

/-- A budget of `months - n` iterations suffices to finish the loop from
the state after `n` months, and yields the final state. -/
theorem loopFuel_runs (freq : ContributionFrequency) (amt principal monthlyRate : ℝ)
    (months : ℕ) : ∀ fuel n, n ≤ months → months ≤ n + fuel →
    loopFuel freq amt principal monthlyRate months fuel (n + 1)
      (runMonths freq amt principal monthlyRate months n) =
      some (runMonths freq amt principal monthlyRate months months) := by
  intro fuel
  induction fuel with
  | zero =>
    intro n h1 h2
    have hn : n = months := le_antisymm h1 (by omega)
    subst hn
    show (if n < n + 1 then some (runMonths freq amt principal monthlyRate n n)
      else none) = _
    rw [if_pos (Nat.lt_succ_self n)]
  | succ f ih =>
    intro n h1 h2
    show (if months < n + 1 then some (runMonths freq amt principal monthlyRate months n)
      else loopFuel freq amt principal monthlyRate months f (n + 1 + 1)
        (step freq amt principal monthlyRate months (n + 1)
          (runMonths freq amt principal monthlyRate months n))) = _
    by_cases hlt : months < n + 1
    · rw [if_pos hlt]
      have hn : n = months := le_antisymm h1 (by omega)
      subst hn
      rfl
    · rw [if_neg hlt]
      exact ih (n + 1) (by omega) (by omega)

/-- A budget smaller than the number of remaining months exhausts the
loop without finishing: the loop really does run `months` iterations. -/
theorem loopFuel_exhausts (freq : ContributionFrequency) (amt principal monthlyRate : ℝ)
    (months : ℕ) : ∀ fuel n (s : LoopState), n + fuel < months →
    loopFuel freq amt principal monthlyRate months fuel (n + 1) s = none := by
  intro fuel
  induction fuel with
  | zero =>
    intro n s h
    show (if months < n + 1 then some s else none) = none
    rw [if_neg (by omega)]
  | succ f ih =>
    intro n s h
    show (if months < n + 1 then some s
      else loopFuel freq amt principal monthlyRate months f (n + 1 + 1)
        (step freq amt principal monthlyRate months (n + 1) s)) = none
    rw [if_neg (by omega)]
    exact ih (n + 1) _ (by omega)

/-- CLAIM C9: on well-formed input the engine is total — the guarded
division is defined since `compoundsPerYear > 0`, a budget of exactly
`months = max(1, round(years * 12))` iterations completes the loop and
returns the plain engine's result, and a budget of `months - 1` does
not complete it (the loop runs exactly `months` iterations). -/
theorem engine_total_on_wellformed (input : CalculationInput)
    (_hp : 0 ≤ input.principal) (_hr : 0 ≤ input.annualRatePercent)
    (_hy : 0 < input.years) (hc : 0 < input.compoundsPerYear)
    (_ha : 0 ≤ input.contributionAmount) :
    calculateCompoundInterestChecked input = some (calculateCompoundInterest input) ∧
    monthsOf input.years = max 1 (round (input.years * 12)).toNat ∧
    loopFuel input.contributionFrequency input.contributionAmount input.principal
      (monthlyRateOf input.annualRatePercent input.compoundsPerYear)
      (monthsOf input.years) (monthsOf input.years - 1) 1
      (initState input.principal) = none := by
  have hM := monthsOf_pos input.years
  refine ⟨?_, rfl, ?_⟩
  · have hrun := loopFuel_runs input.contributionFrequency input.contributionAmount
      input.principal (monthlyRateOf input.annualRatePercent input.compoundsPerYear)
      (monthsOf input.years) (monthsOf input.years) 0 (by omega) (by omega)
    rw [show runMonths input.contributionFrequency input.contributionAmount
        input.principal (monthlyRateOf input.annualRatePercent input.compoundsPerYear)
        (monthsOf input.years) 0 = initState input.principal from rfl] at hrun
    unfold calculateCompoundInterestChecked
    rw [if_neg (ne_of_gt hc), hrun]
    rfl
  · exact loopFuel_exhausts input.contributionFrequency input.contributionAmount
      input.principal (monthlyRateOf input.annualRatePercent input.compoundsPerYear)
      (monthsOf input.years) (monthsOf input.years - 1) 0 (initState input.principal)
      (by omega)

/-- Witness for C9 at `contribInput`. -/
theorem engine_total_on_wellformed_witness :
    ((0 : ℝ) ≤ contribInput.principal ∧ (0 : ℝ) ≤ contribInput.annualRatePercent ∧
      (0 : ℝ) < contribInput.years ∧ (0 : ℝ) < contribInput.compoundsPerYear ∧
      (0 : ℝ) ≤ contribInput.contributionAmount) ∧
    (calculateCompoundInterestChecked contribInput =
      some (calculateCompoundInterest contribInput) ∧
    monthsOf contribInput.years = max 1 (round (contribInput.years * 12)).toNat ∧
    loopFuel contribInput.contributionFrequency contribInput.contributionAmount
      contribInput.principal
      (monthlyRateOf contribInput.annualRatePercent contribInput.compoundsPerYear)
      (monthsOf contribInput.years) (monthsOf contribInput.years - 1) 1
      (initState contribInput.principal) = none) :=
  ⟨⟨by norm_num [contribInput], by norm_num [contribInput], by norm_num [contribInput],
    by norm_num [contribInput], by norm_num [contribInput]⟩,
   engine_total_on_wellformed contribInput (by norm_num [contribInput])
    (by norm_num [contribInput]) (by norm_num [contribInput])
    (by norm_num [contribInput]) (by norm_num [contribInput])⟩

end InterestCalc
